import Mathlib

/-!
Shallow embedding of the real-time telemetry fan-out engine of the
energy-platform mock server (src/mock-server.ts), together with theorems
settling the frozen claims about it.

Modelling conventions:
* JavaScript numbers are modelled as `Rat`; `Math.round` is `jsRound`
  (round half toward positive infinity, the ECMAScript semantics).
* ISO-8601 timestamps are compared through their epoch-millisecond value,
  so a timestamp is modelled as a `Nat`.
* `Math.random()` draws are passed as explicit `Rat` parameters constrained
  to the interval [0, 1).
* The mutable global array `readings` is threaded as a `List EnergyReading`
  in push order; `Array.prototype.splice` removal and `Set` mutation are
  modelled on lists.
-/

/-- The readingType tag of a reading (interface EnergyReading). -/
inductive ReadingType where
  | consumption
  | generation
deriving DecidableEq, Repr

/-- interface EnergyReading of mock-server.ts; kwh and voltage are JS
numbers (here Rat), timestamp is compared as epoch milliseconds (Nat). -/
structure EnergyReading where
  id : Nat
  deviceId : String
  timestamp : Nat
  kwh : Rat
  voltage : Rat
  readingType : ReadingType
deriving DecidableEq, Repr

/-- Device status enumeration of interface Device. -/
inductive DeviceStatus where
  | active
  | inactive
  | maintenance
deriving DecidableEq, Repr

/-- Device type enumeration of interface Device. -/
inductive DeviceType where
  | grid
  | solar
  | wind
  | battery
deriving DecidableEq, Repr

/-- interface Device of mock-server.ts. -/
structure Device where
  id : String
  name : String
  status : DeviceStatus
  type : DeviceType
  location : String
  utilityId : String
deriving DecidableEq, Repr

/-- interface AggregateStats of mock-server.ts. -/
structure AggregateStats where
  deviceId : String
  total : Rat
  average : Rat
  count : Nat
  min : Rat
  max : Rat
deriving DecidableEq, Repr

/-- const MAX_READINGS_PER_DEVICE = 100. -/
def MAX_READINGS_PER_DEVICE : Nat := 100

/-- ECMAScript Math.round: round half toward positive infinity,
Math.round(x) = floor(x + 0.5). -/
def jsRound (q : Rat) : Int := Int.floor (q + 1/2)

/-- Math.round(q * 100) / 100 — rounding to two decimals. -/
def round2 (q : Rat) : Rat := ((jsRound (q * 100) : Rat)) / 100

/-- Math.round(q * 10) / 10 — rounding to one decimal. -/
def round1 (q : Rat) : Rat := ((jsRound (q * 10) : Rat)) / 10

/-- function getDeviceReadings: readings.filter(r => r.deviceId === deviceId). -/
def getDeviceReadings (deviceId : String) (readings : List EnergyReading) :
    List EnergyReading :=
  readings.filter (fun r => r.deviceId = deviceId)

/-- Math.min over a spread argument list (0 is never used: the caller
guards against the empty case). -/
def listMin : List Rat → Rat
  | [] => 0
  | v :: vs => vs.foldl min v

/-- Math.max over a spread argument list. -/
def listMax : List Rat → Rat
  | [] => 0
  | v :: vs => vs.foldl max v

/-- function calculateAggregates of mock-server.ts. -/
def calculateAggregates (deviceId : String) (readings : List EnergyReading) :
    AggregateStats :=
  let deviceReadings := getDeviceReadings deviceId readings
  if deviceReadings.length = 0 then
    { deviceId := deviceId, total := 0, average := 0, count := 0, min := 0, max := 0 }
  else
    let values := deviceReadings.map (fun r => r.kwh)
    let total := values.foldl (fun sum val => sum + val) 0
    let average := total / (values.length : Rat)
    { deviceId := deviceId, total := total, average := average,
      count := deviceReadings.length, min := listMin values, max := listMax values }

/-- The ascending-by-timestamp comparison used by cleanupOldReadings via
the comparator (a, b) => new Date(a.timestamp) - new Date(b.timestamp). -/
def tsLE (a b : EnergyReading) : Prop := a.timestamp ≤ b.timestamp

instance : DecidableRel tsLE := fun a b => Nat.decLe a.timestamp b.timestamp

instance : IsTotal EnergyReading tsLE := ⟨fun a b => Nat.le_total a.timestamp b.timestamp⟩

instance : IsTrans EnergyReading tsLE := ⟨fun _ _ _ h1 h2 => Nat.le_trans h1 h2⟩

/-- Array.prototype.sort with the ascending timestamp comparator
(applied to the fresh array produced by filter). -/
def sortByTimestamp (l : List EnergyReading) : List EnergyReading :=
  List.insertionSort tsLE l

/-- readings.findIndex(r => r.id === id) followed by readings.splice(index, 1):
remove the first reading with the given id, no-op when absent. -/
def removeFirstById (i : Nat) : List EnergyReading → List EnergyReading
  | [] => []
  | r :: rs => if r.id = i then rs else r :: removeFirstById i rs

/-- function cleanupOldReadings of mock-server.ts: when a device holds more
than MAX_READINGS_PER_DEVICE readings, sort its readings ascending by
timestamp, take the surplus oldest ones and splice each out of the global
readings array by id. -/
def cleanupOldReadings (deviceId : String) (readings : List EnergyReading) :
    List EnergyReading :=
  let deviceReadings := getDeviceReadings deviceId readings
  if deviceReadings.length > MAX_READINGS_PER_DEVICE then
    let toRemove := deviceReadings.length - MAX_READINGS_PER_DEVICE
    let oldestReadings := (sortByTimestamp deviceReadings).take toRemove
    oldestReadings.foldl (fun rs reading => removeFirstById reading.id rs) readings
  else
    readings

/-- function generateReading of mock-server.ts. The clock reads
(new Date().getHours(), timestamp) and the two Math.random() draws are
explicit parameters; generateId() is the newId parameter. -/
def generateReading (device : Device) (hour : Nat) (now : Nat) (newId : Nat)
    (randKwh randVolt : Rat) : EnergyReading :=
  let p : Rat × ReadingType :=
    if device.type = DeviceType.solar then
      if 6 ≤ hour ∧ hour ≤ 18 then
        (-(randKwh * 5 + 2), ReadingType.generation)
      else
        (0, ReadingType.generation)
    else
      (randKwh * 10 + 5, ReadingType.consumption)
  { id := newId, deviceId := device.id, timestamp := now,
    kwh := round2 p.1, voltage := round1 (randVolt * 10 + 235),
    readingType := p.2 }

/-!
Reading-recording operations. Each operation of the server pushes exactly
one reading onto the global readings array; the handlers for
POST /api/readings, reading:new and the generator tick then call
cleanupOldReadings for the deviceId of the pushed reading, while the
POST /api/readings/batch handler pushes each batch item without any
cleanup call. Socket emission and Kafka forwarding do not touch the
reading store and are not part of these operations.
-/

/-- One reading-recording step of the server. `single` is a validated
POST /api/readings request (server-stamped timestamp `now`, kwh rounded,
voltage already defaulted); `batchItem` is one element of a
POST /api/readings/batch body (fields already defaulted, timestamp
possibly client-supplied); `clientPush` is a reading:new socket message;
`tickDevice` is the processing of one catalog device inside a generator
tick. -/
inductive RecordOp where
  | single (deviceId : String) (now : Nat) (newId : Nat) (kwh voltage : Rat)
      (rt : ReadingType)
  | batchItem (r : EnergyReading)
  | clientPush (r : EnergyReading)
  | tickDevice (device : Device) (hour : Nat) (now : Nat) (newId : Nat)
      (randKwh randVolt : Rat)
deriving Repr

/-- The reading an operation pushes onto the readings array. -/
def opReading : RecordOp → EnergyReading
  | RecordOp.single deviceId now newId kwh voltage rt =>
      { id := newId, deviceId := deviceId, timestamp := now,
        kwh := round2 kwh, voltage := voltage, readingType := rt }
  | RecordOp.batchItem r => r
  | RecordOp.clientPush r => r
  | RecordOp.tickDevice device hour now newId randKwh randVolt =>
      generateReading device hour now newId randKwh randVolt

/-- Whether the handler of the operation calls cleanupOldReadings after
the push (every handler does, except the batch handler). -/
def opCleans : RecordOp → Bool
  | RecordOp.batchItem _ => false
  | _ => true

/-- Effect of one operation on the global readings array: push, then the
cleanup call of the handler if it makes one (the cleanup argument is
always the deviceId of the pushed reading). -/
def applyOp (readings : List EnergyReading) (op : RecordOp) : List EnergyReading :=
  let r := opReading op
  let pushed := readings ++ [r]
  if opCleans op then cleanupOldReadings r.deviceId pushed else pushed

/-- Run a sequence of reading-recording operations. -/
def runOps (ops : List RecordOp) (readings : List EnergyReading) :
    List EnergyReading :=
  ops.foldl applyOp readings

/-!
Subscription registries. A JS Set of socket ids is modelled as a
duplicate-free list in insertion order; Set.add is setAdd, Set.delete on
such a list is a filter. A Map from topic key to Set is an association
list whose keys are unique (Map.set on a fresh key appends an entry,
Map.get mutates the entry in place).
-/

/-- Set.prototype.add: append unless already a member. -/
def setAdd (x : String) (s : List String) : List String :=
  if x ∈ s then s else s ++ [x]

/-- Map.prototype.get: value of the first entry with the given key. -/
def mapGet (k : String) (m : List (String × List String)) : Option (List String) :=
  (m.find? (fun p => p.1 = k)).map (fun p => p.2)

/-- The guard pattern if (!map.has(k)) map.set(k, new Set()). -/
def ensureKey (k : String) (m : List (String × List String)) :
    List (String × List String) :=
  if m.any (fun p => p.1 = k) then m else m ++ [(k, [])]

/-- map.get(k)!.add(sid) preceded by the ensure-key guard, the body of the
subscribe, subscribe:alerts and join:room handlers. -/
def mapAddMember (k sid : String) (m : List (String × List String)) :
    List (String × List String) :=
  (ensureKey k m).map (fun p => if p.1 = k then (p.1, setAdd sid p.2) else p)

/-- const s = map.get(k); if (s) s.delete(sid) — the body of the
unsubscribe and leave:room handlers: mutate the entry in place when the
key exists, never remove the key. -/
def mapDelMember (k sid : String) (m : List (String × List String)) :
    List (String × List String) :=
  m.map (fun p => if p.1 = k then (p.1, p.2.filter (fun x => x ≠ sid)) else p)

/-- The four subscription registries of mock-server.ts. -/
structure SubState where
  deviceSubscriptions : List (String × List String)
  statusSubscriptions : List String
  alertSubscriptions : List (String × List String)
  roomSubscriptions : List (String × List String)
deriving DecidableEq, Repr

/-- The disconnect handler: delete the socket id from every membership set
of every registry (keys are never deleted). -/
def removeEverywhere (sid : String) (st : SubState) : SubState :=
  { deviceSubscriptions :=
      st.deviceSubscriptions.map (fun p => (p.1, p.2.filter (fun x => x ≠ sid))),
    statusSubscriptions := st.statusSubscriptions.filter (fun x => x ≠ sid),
    alertSubscriptions :=
      st.alertSubscriptions.map (fun p => (p.1, p.2.filter (fun x => x ≠ sid))),
    roomSubscriptions :=
      st.roomSubscriptions.map (fun p => (p.1, p.2.filter (fun x => x ≠ sid))) }

/-- The socket lifecycle operations that touch the registries. -/
inductive SubOp where
  | subscribe (sid deviceId : String)
  | unsubscribe (sid deviceId : String)
  | subscribeStatus (sid : String)
  | subscribeAlerts (sid deviceId : String)
  | joinRoom (sid room : String)
  | leaveRoom (sid room : String)
  | disconnect (sid : String)
deriving Repr

/-- Effect of one socket event handler on the registries. -/
def applySubOp (st : SubState) : SubOp → SubState
  | SubOp.subscribe sid deviceId =>
      { st with deviceSubscriptions := mapAddMember deviceId sid st.deviceSubscriptions }
  | SubOp.unsubscribe sid deviceId =>
      { st with deviceSubscriptions := mapDelMember deviceId sid st.deviceSubscriptions }
  | SubOp.subscribeStatus sid =>
      { st with statusSubscriptions := setAdd sid st.statusSubscriptions }
  | SubOp.subscribeAlerts sid deviceId =>
      { st with alertSubscriptions := mapAddMember deviceId sid st.alertSubscriptions }
  | SubOp.joinRoom sid room =>
      { st with roomSubscriptions := mapAddMember room sid st.roomSubscriptions }
  | SubOp.leaveRoom sid room =>
      { st with roomSubscriptions := mapDelMember room sid st.roomSubscriptions }
  | SubOp.disconnect sid => removeEverywhere sid st

/-- Run a sequence of socket lifecycle operations. -/
def runSubOps (ops : List SubOp) (st : SubState) : SubState :=
  ops.foldl applySubOp st

/-- The socket ids the POST /api/readings emit loop iterates over:
const subscribers = deviceSubscriptions.get(deviceId);
if (subscribers) subscribers.forEach(emit). Each listed id receives one
reading:update emission. -/
def publishTargets (deviceId : String) (m : List (String × List String)) :
    List String :=
  (mapGet deviceId m).getD []

/-- function simulateRealTimeReadings of mock-server.ts, parametrized by
the per-device synthesis rule (the source inlines generateReading; the
claim hypothesizes a rule that may throw, modelled as returning none).
devices.forEach pushes and cleans per device; a thrown exception
propagates out of forEach, so processing stops at the failing device: the
result pairs the readings array with false in that case, true when the
whole pass completed. Socket emission does not touch the reading store
and is omitted. -/
def simulateRealTimeReadings (synth : Device → Option EnergyReading) :
    List Device → List EnergyReading → List EnergyReading × Bool
  | [], readings => (readings, true)
  | device :: devs, readings =>
    match synth device with
    | none => (readings, false)
    | some reading =>
        simulateRealTimeReadings synth devs
          (cleanupOldReadings device.id (readings ++ [reading]))

/-- The per-device history is sorted non-decreasing by timestamp. -/
def sortedDev (deviceId : String) (readings : List EnergyReading) : Prop :=
  List.Pairwise tsLE (getDeviceReadings deviceId readings)

/-- An operation sequence is admissible for a device when every reading it
records for that device carries a timestamp at least as large as the
timestamps of the readings that device already holds at that point. This
is what server stamping guarantees for single-create and tick readings
under a monotone clock, and what client-supplied timestamps may break. -/
inductive Admissible (deviceId : String) : List EnergyReading → List RecordOp → Prop
  | nil (readings : List EnergyReading) : Admissible deviceId readings []
  | cons (readings : List EnergyReading) (op : RecordOp) (ops : List RecordOp)
      (hts : (opReading op).deviceId = deviceId →
        ∀ r ∈ getDeviceReadings deviceId readings,
          r.timestamp ≤ (opReading op).timestamp)
      (htail : Admissible deviceId (applyOp readings op) ops) :
      Admissible deviceId readings (op :: ops)

/-- First catalog device (grid type). -/
def demoGrid : Device :=
  { id := "EAGLE-200-12345", name := "Device 1", status := DeviceStatus.active,
    type := DeviceType.grid, location := "Building A - Main Entrance",
    utilityId := "UTIL-001" }

/-- Second catalog device (solar type). -/
def demoSolar : Device :=
  { id := "EAGLE-200-67890", name := "Solar Panel Array",
    status := DeviceStatus.active, type := DeviceType.solar,
    location := "Building A - Rooftop", utilityId := "UTIL-001" }

/-- Third catalog device (wind type). -/
def demoWind : Device :=
  { id := "EAGLE-200-11111", name := "Device 2", status := DeviceStatus.inactive,
    type := DeviceType.wind, location := "Building B - West Wing",
    utilityId := "UTIL-002" }

/-- A store holding one reading that belongs to the grid device only. -/
def demoOtherStore : List EnergyReading :=
  [{ id := 1, deviceId := "EAGLE-200-12345", timestamp := 5, kwh := 7,
     voltage := 240, readingType := ReadingType.consumption }]

/-- A synthesis rule that throws on the grid device and follows
generateReading (fixed draws) elsewhere. -/
def demoFailingSynth : Device → Option EnergyReading := fun device =>
  if device.id = "EAGLE-200-12345" then none
  else some (generateReading device 12 0 3 0 0)

/-- A reading for the C2 eviction witness store, timestamp and id both i. -/
def demoReading (i : Nat) : EnergyReading :=
  { id := i, deviceId := "EAGLE-200-12345", timestamp := i, kwh := 1,
    voltage := 240, readingType := ReadingType.consumption }

/-- 101 readings for one device, so that a cleanup call evicts one. -/
def demoStore : List EnergyReading := (List.range 101).map demoReading

/-- A batch request of 101 readings for a single device: the batch handler
pushes every item and never calls cleanupOldReadings. -/
def demoBatchOps : List RecordOp :=
  (List.range 101).map (fun i => RecordOp.batchItem (demoReading i))

/-- Two batch items with client-supplied timestamps out of order. -/
def demoOutOfOrderOps : List RecordOp :=
  [RecordOp.batchItem
    { id := 1, deviceId := "EAGLE-200-12345", timestamp := 100, kwh := 1,
      voltage := 240, readingType := ReadingType.consumption },
   RecordOp.batchItem
    { id := 2, deviceId := "EAGLE-200-12345", timestamp := 50, kwh := 1,
      voltage := 240, readingType := ReadingType.consumption }]

/-- Keys of a topic-keyed registry, in entry order. -/
def mapKeys (m : List (String × List String)) : List String :=
  m.map Prod.fst

/-!
Theorems. Helper lemmas come first, then one theorem per claim together
with its witness or counterexample.
-/

theorem le_jsRound (q : Rat) (lo : Int) (h : (lo : Rat) ≤ q + 1/2) :
    lo ≤ jsRound q :=
  Int.le_floor.mpr h

theorem jsRound_le (q : Rat) (hi : Int) (h : q + 1/2 < (hi : Rat) + 1) :
    jsRound q ≤ hi := by
  have h2 : jsRound q < hi + 1 := by
    apply Int.floor_lt.mpr
    push_cast
    linarith
  omega

theorem le_round2 (q : Rat) (n : Int) (h : (n : Rat) ≤ q * 100 + 1/2) :
    (n : Rat) / 100 ≤ round2 q := by
  unfold round2
  have hn := le_jsRound (q * 100) n h
  have h100 : (0 : Rat) < 100 := by norm_num
  rw [div_le_div_iff_of_pos_right h100]
  exact_mod_cast hn

theorem round2_le (q : Rat) (n : Int) (h : q * 100 + 1/2 < (n : Rat) + 1) :
    round2 q ≤ (n : Rat) / 100 := by
  unfold round2
  have hn := jsRound_le (q * 100) n h
  have h100 : (0 : Rat) < 100 := by norm_num
  rw [div_le_div_iff_of_pos_right h100]
  exact_mod_cast hn

/-- C7: for every device identifier whose history is empty (including
identifiers of unknown devices), calculateAggregates returns exactly the
zero-valued record, not an error. -/
theorem calculateAggregates_empty_contract (d : String)
    (readings : List EnergyReading) (h : getDeviceReadings d readings = []) :
    calculateAggregates d readings =
      { deviceId := d, total := 0, average := 0, count := 0, min := 0, max := 0 } := by
  simp [calculateAggregates, h]

theorem calculateAggregates_empty_contract_witness :
    getDeviceReadings "EAGLE-200-67890" demoOtherStore = [] ∧
    calculateAggregates "EAGLE-200-67890" demoOtherStore =
      { deviceId := "EAGLE-200-67890", total := 0, average := 0, count := 0,
        min := 0, max := 0 } :=
  ⟨by decide, calculateAggregates_empty_contract _ _ (by decide)⟩

/-- C3 counterexample: at local hour 18 (which the claim places outside
the daytime window) a solar tick with draw 0 produces magnitude -2, not 0,
because the code tests hour <= 18 inclusively. -/
theorem generateReading_solar_hour18_counterexample :
    (0 : Rat) ≤ 0 ∧ (0 : Rat) < 1 ∧ demoSolar.type = DeviceType.solar ∧
    (generateReading demoSolar 18 1000 1 0 0).readingType = ReadingType.generation ∧
    (generateReading demoSolar 18 1000 1 0 0).kwh = -2 ∧
    ¬ (generateReading demoSolar 18 1000 1 0 0).kwh = 0 := by
  refine ⟨le_refl 0, by norm_num, rfl, ?_, ?_, ?_⟩
  · norm_num [generateReading, demoSolar]
  · norm_num [generateReading, demoSolar, round2, jsRound]
  · norm_num [generateReading, demoSolar, round2, jsRound]

/-- C3 amended: for a solar device the daytime window of the code is
hour in [6,18] inclusive; inside it the reading has kind generation and
magnitude in [-7,-2]; at hours strictly below 6 or strictly above 18 the
magnitude is 0 with kind generation. -/
theorem generateReading_solar_window (device : Device)
    (h : device.type = DeviceType.solar) (hour now newId : Nat)
    (randKwh randVolt : Rat) (h0 : 0 ≤ randKwh) (h1 : randKwh < 1) :
    ((6 ≤ hour ∧ hour ≤ 18) →
        (generateReading device hour now newId randKwh randVolt).readingType
            = ReadingType.generation ∧
        -7 ≤ (generateReading device hour now newId randKwh randVolt).kwh ∧
        (generateReading device hour now newId randKwh randVolt).kwh ≤ -2) ∧
    ((hour < 6 ∨ 18 < hour) →
        (generateReading device hour now newId randKwh randVolt).kwh = 0 ∧
        (generateReading device hour now newId randKwh randVolt).readingType
            = ReadingType.generation) := by
  constructor
  · rintro ⟨hw1, hw2⟩
    have hks : (generateReading device hour now newId randKwh randVolt).kwh
        = round2 (-(randKwh * 5 + 2)) := by
      simp [generateReading, h, hw1, hw2]
    have hrt : (generateReading device hour now newId randKwh randVolt).readingType
        = ReadingType.generation := by
      simp [generateReading, h, hw1, hw2]
    refine ⟨hrt, ?_, ?_⟩
    · rw [hks]
      have h7 : (-7 : Rat) = ((-700 : Int) : Rat) / 100 := by norm_num
      rw [h7]
      exact le_round2 _ (-700) (by push_cast; linarith)
    · rw [hks]
      have h2 : (-2 : Rat) = ((-200 : Int) : Rat) / 100 := by norm_num
      rw [h2]
      exact round2_le _ (-200) (by push_cast; linarith)
  · intro hw
    have hcond : ¬ (6 ≤ hour ∧ hour ≤ 18) := by omega
    have hks : (generateReading device hour now newId randKwh randVolt).kwh
        = round2 0 := by
      simp [generateReading, h, hcond]
    have hz : round2 0 = 0 := by norm_num [round2, jsRound]
    have hrt : (generateReading device hour now newId randKwh randVolt).readingType
        = ReadingType.generation := by
      simp [generateReading, h, hcond]
    exact ⟨by rw [hks, hz], hrt⟩

theorem generateReading_solar_window_witness :
    demoSolar.type = DeviceType.solar ∧ (0 : Rat) ≤ 0 ∧ (0 : Rat) < 1 ∧
    ((generateReading demoSolar 12 0 1 0 0).readingType = ReadingType.generation ∧
      -7 ≤ (generateReading demoSolar 12 0 1 0 0).kwh ∧
      (generateReading demoSolar 12 0 1 0 0).kwh ≤ -2) :=
  ⟨rfl, le_refl 0, by norm_num,
    (generateReading_solar_window demoSolar rfl 12 0 1 0 0 (le_refl 0)
        (by norm_num)).1 (by omega)⟩

/-- C9 counterexample: with draw 1999/2000 the pre-rounding magnitude is
14.995, which Math.round to two decimals pushes up to exactly 15, outside
the half-open interval [5,15). -/
theorem generateReading_nonsolar_roundup_counterexample :
    (0 : Rat) ≤ 1999/2000 ∧ (1999/2000 : Rat) < 1 ∧
    demoGrid.type ≠ DeviceType.solar ∧
    (generateReading demoGrid 12 0 2 (1999/2000) 0).readingType
        = ReadingType.consumption ∧
    (generateReading demoGrid 12 0 2 (1999/2000) 0).kwh = 15 ∧
    ¬ (generateReading demoGrid 12 0 2 (1999/2000) 0).kwh < 15 := by
  have hne : ¬ (DeviceType.grid = DeviceType.solar) := by decide
  refine ⟨by norm_num, by norm_num, by decide, ?_, ?_, ?_⟩ <;>
    norm_num [generateReading, demoGrid, hne, round2, jsRound]

/-- C9 amended: a generator tick on a non-solar device yields kind
consumption and a magnitude (after rounding to two decimals) in the
closed interval [5,15]; the rounding can attain the upper endpoint. -/
theorem generateReading_nonsolar_range (device : Device)
    (h : device.type ≠ DeviceType.solar) (hour now newId : Nat)
    (randKwh randVolt : Rat) (h0 : 0 ≤ randKwh) (h1 : randKwh < 1) :
    (generateReading device hour now newId randKwh randVolt).readingType
        = ReadingType.consumption ∧
    5 ≤ (generateReading device hour now newId randKwh randVolt).kwh ∧
    (generateReading device hour now newId randKwh randVolt).kwh ≤ 15 := by
  have hks : (generateReading device hour now newId randKwh randVolt).kwh
      = round2 (randKwh * 10 + 5) := by
    simp [generateReading, h]
  have hrt : (generateReading device hour now newId randKwh randVolt).readingType
      = ReadingType.consumption := by
    simp [generateReading, h]
  refine ⟨hrt, ?_, ?_⟩
  · rw [hks]
    have h5 : (5 : Rat) = ((500 : Int) : Rat) / 100 := by norm_num
    rw [h5]
    exact le_round2 _ 500 (by push_cast; linarith)
  · rw [hks]
    have h15 : (15 : Rat) = ((1500 : Int) : Rat) / 100 := by norm_num
    rw [h15]
    exact round2_le _ 1500 (by push_cast; linarith)

theorem generateReading_nonsolar_range_witness :
    demoGrid.type ≠ DeviceType.solar ∧ (0 : Rat) ≤ 0 ∧ (0 : Rat) < 1 ∧
    ((generateReading demoGrid 12 0 2 0 0).readingType = ReadingType.consumption ∧
      5 ≤ (generateReading demoGrid 12 0 2 0 0).kwh ∧
      (generateReading demoGrid 12 0 2 0 0).kwh ≤ 15) :=
  ⟨by decide, le_refl 0, by norm_num,
    generateReading_nonsolar_range demoGrid (by decide) 12 0 2 0 0 (le_refl 0)
      (by norm_num)⟩

theorem not_mem_filter_ne (sid : String) (l : List String) :
    sid ∉ l.filter (fun x => x ≠ sid) := by
  intro h
  have h2 := (List.mem_filter.mp h).2
  simp at h2

theorem filter_ne_self_eq (sid : String) (l : List String) :
    (l.filter (fun x => x ≠ sid)).filter (fun x => x ≠ sid)
      = l.filter (fun x => x ≠ sid) := by
  apply List.filter_eq_self.mpr
  intro a ha
  exact (List.mem_filter.mp ha).2

/-- C5: the disconnect cleanup removes the connection from every
membership set of all four topic spaces, and running it a second time is
a no-op on the whole registry state. -/
theorem removeEverywhere_clears_and_idempotent (st : SubState) (sid : String) :
    (∀ p ∈ (removeEverywhere sid st).deviceSubscriptions, sid ∉ p.2) ∧
    sid ∉ (removeEverywhere sid st).statusSubscriptions ∧
    (∀ p ∈ (removeEverywhere sid st).alertSubscriptions, sid ∉ p.2) ∧
    (∀ p ∈ (removeEverywhere sid st).roomSubscriptions, sid ∉ p.2) ∧
    removeEverywhere sid (removeEverywhere sid st) = removeEverywhere sid st := by
  have hmap : ∀ m : List (String × List String),
      ∀ p ∈ m.map (fun p => (p.1, p.2.filter (fun x => x ≠ sid))), sid ∉ p.2 := by
    intro m p hp
    obtain ⟨q, _, rfl⟩ := List.mem_map.mp hp
    exact not_mem_filter_ne sid q.2
  have hmap2 : ∀ m : List (String × List String),
      (m.map (fun p => (p.1, p.2.filter (fun x => x ≠ sid)))).map
          (fun p => (p.1, p.2.filter (fun x => x ≠ sid)))
        = m.map (fun p => (p.1, p.2.filter (fun x => x ≠ sid))) := by
    intro m
    rw [List.map_map]
    congr 1
    funext p
    simp [Function.comp, filter_ne_self_eq]
  refine ⟨hmap _, not_mem_filter_ne sid _, hmap _, hmap _, ?_⟩
  simp [removeEverywhere, hmap2, filter_ne_self_eq]

theorem setAdd_nodup {s : List String} (h : s.Nodup) (x : String) :
    (setAdd x s).Nodup := by
  by_cases hx : x ∈ s
  · simpa [setAdd, hx] using h
  · simp [setAdd, hx, List.nodup_append, h]

theorem mem_setAdd_self (x : String) (s : List String) : x ∈ setAdd x s := by
  by_cases hx : x ∈ s <;> simp [setAdd, hx]

theorem setAdd_eq_of_mem {x : String} {s : List String} (h : x ∈ s) :
    setAdd x s = s := by
  simp [setAdd, h]

theorem mapGet_cons_eq {d : String} {p : String × List String}
    {ps : List (String × List String)} (hp : p.1 = d) :
    mapGet d (p :: ps) = some p.2 := by
  simp [mapGet, List.find?_cons_of_pos, hp]

theorem mapGet_cons_ne {d : String} {p : String × List String}
    {ps : List (String × List String)} (hp : ¬ p.1 = d) :
    mapGet d (p :: ps) = mapGet d ps := by
  simp [mapGet, List.find?_cons_of_neg, hp]

theorem ensureKey_cons_ne {d : String} {p : String × List String}
    {ps : List (String × List String)} (hp : ¬ p.1 = d) :
    ensureKey d (p :: ps) = p :: ensureKey d ps := by
  by_cases hany : ps.any (fun q => q.1 = d) <;> simp [ensureKey, hp, hany]

theorem mapGet_mapAddMember (d c : String) (m : List (String × List String)) :
    mapGet d (mapAddMember d c m) = some (setAdd c ((mapGet d m).getD [])) := by
  induction m with
  | nil => simp [mapGet, mapAddMember, ensureKey]
  | cons p ps ih =>
    by_cases hp : p.1 = d
    · have h1 : mapAddMember d c (p :: ps)
          = (p.1, setAdd c p.2) :: ps.map
              (fun q => if q.1 = d then (q.1, setAdd c q.2) else q) := by
        simp [mapAddMember, ensureKey, hp]
      rw [h1, mapGet_cons_eq hp]
      simp [mapGet, hp]
    · have h1 : mapAddMember d c (p :: ps) = p :: mapAddMember d c ps := by
        simp [mapAddMember, ensureKey_cons_ne hp, hp]
      rw [h1, mapGet_cons_ne hp, mapGet_cons_ne hp, ih]

theorem mapGet_mem {d : String} {m : List (String × List String)}
    {s : List String} (h : mapGet d m = some s) : ∃ p ∈ m, p.2 = s := by
  unfold mapGet at h
  obtain ⟨q, hfind, rfl⟩ := Option.map_eq_some'.mp h
  exact ⟨q, List.mem_of_find?_eq_some hfind, rfl⟩

/-- C4: when the membership sets of the device-reading registry are
duplicate-free (as Set semantics guarantees), subscribing the same
connection twice to the same device topic and then publishing one reading
on that topic emits to that connection exactly once. -/
theorem subscribe_twice_publish_once (m : List (String × List String))
    (hm : ∀ p ∈ m, p.2.Nodup) (c d : String) :
    (publishTargets d (mapAddMember d c (mapAddMember d c m))).count c = 1 := by
  have h1 := mapGet_mapAddMember d c m
  have h2 := mapGet_mapAddMember d c (mapAddMember d c m)
  rw [h1] at h2
  have hcur : ((mapGet d m).getD []).Nodup := by
    cases hg : mapGet d m with
    | none => simp
    | some s =>
      obtain ⟨p, hp, rfl⟩ := mapGet_mem hg
      simpa using hm p hp
  unfold publishTargets
  rw [h2]
  simp only [Option.getD_some]
  rw [setAdd_eq_of_mem (mem_setAdd_self c _)]
  exact List.count_eq_one_of_mem (setAdd_nodup hcur c) (mem_setAdd_self c _)

theorem subscribe_twice_publish_once_witness :
    (∀ p ∈ ([] : List (String × List String)), p.2.Nodup) ∧
    (publishTargets "EAGLE-200-12345"
        (mapAddMember "EAGLE-200-12345" "sock-1"
          (mapAddMember "EAGLE-200-12345" "sock-1" []))).count "sock-1" = 1 :=
  ⟨by simp, subscribe_twice_publish_once [] (by simp) "sock-1" "EAGLE-200-12345"⟩

/-- C6 counterexample: the tick body has no per-device error handling.
With a rule that throws on the grid device (first in the catalog) and
succeeds on the wind device, the tick records nothing at all: the wind
device, whose synthesis succeeds, still gets no reading in that tick. -/
theorem tick_not_isolated_counterexample :
    demoFailingSynth demoWind ≠ none ∧
    (simulateRealTimeReadings demoFailingSynth [demoGrid, demoWind] []).2 = false ∧
    (simulateRealTimeReadings demoFailingSynth [demoGrid, demoWind] []).1 = [] ∧
    getDeviceReadings "EAGLE-200-11111"
      (simulateRealTimeReadings demoFailingSynth [demoGrid, demoWind] []).1 = [] := by
  refine ⟨?_, ?_, ?_, ?_⟩
  · simp [demoFailingSynth, demoWind]
  · rfl
  · rfl
  · rfl

/-- C6 amended: when the synthesis rule throws for a device, the devices
preceding it in catalog order keep the readings recorded earlier in the
same tick, but the exception propagates out of the forEach: the failing
device and every later device get no reading, and the pass ends
abnormally. -/
theorem tick_aborts_at_failure (synth : Device → Option EnergyReading)
    (ds1 : List Device) (d : Device) (ds2 : List Device)
    (readings : List EnergyReading)
    (h1 : ∀ d2 ∈ ds1, synth d2 ≠ none) (h2 : synth d = none) :
    simulateRealTimeReadings synth (ds1 ++ d :: ds2) readings
      = ((simulateRealTimeReadings synth ds1 readings).1, false) := by
  induction ds1 generalizing readings with
  | nil => simp [simulateRealTimeReadings, h2]
  | cons a as ih =>
    have ha : synth a ≠ none := h1 a (by simp)
    obtain ⟨r, hr⟩ := Option.ne_none_iff_exists'.mp ha
    simp only [List.cons_append, simulateRealTimeReadings, hr]
    exact ih _ (fun d2 hd2 => h1 d2 (List.mem_cons_of_mem a hd2))

theorem tick_aborts_at_failure_witness :
    (∀ d2 ∈ [demoWind], demoFailingSynth d2 ≠ none) ∧
    demoFailingSynth demoGrid = none ∧
    simulateRealTimeReadings demoFailingSynth ([demoWind] ++ demoGrid :: [demoSolar]) []
      = ((simulateRealTimeReadings demoFailingSynth [demoWind] []).1, false) :=
  ⟨by simp [demoFailingSynth, demoWind], by simp [demoFailingSynth, demoGrid],
    tick_aborts_at_failure demoFailingSynth [demoWind] demoGrid [demoSolar] []
      (by simp [demoFailingSynth, demoWind]) (by simp [demoFailingSynth, demoGrid])⟩

theorem removeFirstById_sublist (i : Nat) (l : List EnergyReading) :
    List.Sublist (removeFirstById i l) l := by
  induction l with
  | nil => simp [removeFirstById]
  | cons r rs ih =>
    by_cases h : r.id = i
    · simp only [removeFirstById, if_pos h]
      exact List.sublist_cons_self r rs
    · simp only [removeFirstById, if_neg h]
      exact List.Sublist.cons₂ r ih

theorem foldRemove_sublist (os : List EnergyReading) (st : List EnergyReading) :
    List.Sublist
      (os.foldl (fun rs reading => removeFirstById reading.id rs) st) st := by
  induction os generalizing st with
  | nil => exact List.Sublist.refl st
  | cons o os ih =>
    simp only [List.foldl_cons]
    exact (ih _).trans (removeFirstById_sublist o.id st)

theorem mem_removeFirstById_of_ne {r : EnergyReading} {l : List EnergyReading}
    {i : Nat} (hr : r ∈ l) (hne : r.id ≠ i) : r ∈ removeFirstById i l := by
  induction l with
  | nil => cases hr
  | cons a l ih =>
    by_cases h : a.id = i
    · simp only [removeFirstById, if_pos h]
      rcases List.mem_cons.mp hr with rfl | hmem
      · exact absurd h hne
      · exact hmem
    · simp only [removeFirstById, if_neg h]
      rcases List.mem_cons.mp hr with rfl | hmem
      · exact List.mem_cons_self _ _
      · exact List.mem_cons_of_mem _ (ih hmem)

theorem not_mem_removeFirstById {r : EnergyReading} {l : List EnergyReading}
    (hnd : (l.map (fun x => x.id)).Nodup) (hr : r ∈ l) :
    r ∉ removeFirstById r.id l := by
  induction l with
  | nil => simp [removeFirstById]
  | cons a l ih =>
    simp only [List.map_cons, List.nodup_cons] at hnd
    obtain ⟨hna, hnl⟩ := hnd
    by_cases h : a.id = r.id
    · simp only [removeFirstById, if_pos h]
      intro hmem
      exact hna (by rw [h]; exact List.mem_map.mpr ⟨r, hmem, rfl⟩)
    · simp only [removeFirstById, if_neg h]
      intro hmem
      rcases List.mem_cons.mp hmem with rfl | hmem2
      · exact h rfl
      · have hrl : r ∈ l := by
          rcases List.mem_cons.mp hr with rfl | h3
          · exact absurd rfl h
          · exact h3
        exact ih hnl hrl hmem2

theorem mem_foldRemove {r : EnergyReading} (os : List EnergyReading)
    {st : List EnergyReading} (hr : r ∈ st) (hos : ∀ o ∈ os, r.id ≠ o.id) :
    r ∈ os.foldl (fun rs reading => removeFirstById reading.id rs) st := by
  induction os generalizing st with
  | nil => exact hr
  | cons o os ih =>
    simp only [List.foldl_cons]
    exact ih (mem_removeFirstById_of_ne hr (hos o (List.mem_cons_self o os)))
      (fun o2 ho2 => hos o2 (List.mem_cons_of_mem o ho2))

theorem not_mem_foldRemove {r : EnergyReading} (os : List EnergyReading)
    {st : List EnergyReading} (hnd : (st.map (fun x => x.id)).Nodup)
    (hr : r ∈ st) (hos : ∃ o ∈ os, r.id = o.id) :
    r ∉ os.foldl (fun rs reading => removeFirstById reading.id rs) st := by
  induction os generalizing st with
  | nil =>
    obtain ⟨o, ho, _⟩ := hos
    cases ho
  | cons o os ih =>
    simp only [List.foldl_cons]
    by_cases h : r.id = o.id
    · have hnot : r ∉ removeFirstById o.id st := by
        rw [← h]
        exact not_mem_removeFirstById hnd hr
      intro hmem
      exact hnot ((foldRemove_sublist os (removeFirstById o.id st)).subset hmem)
    · obtain ⟨o2, ho2, heq⟩ := hos
      have ho2m : o2 ∈ os := by
        rcases List.mem_cons.mp ho2 with rfl | h2
        · exact absurd heq h
        · exact h2
      have hnd2 : ((removeFirstById o.id st).map (fun x => x.id)).Nodup :=
        List.Nodup.sublist ((removeFirstById_sublist o.id st).map _) hnd
      exact ih hnd2 (mem_removeFirstById_of_ne hr h) ⟨o2, ho2m, heq⟩

theorem id_injective_on_mem {a b : EnergyReading} {l : List EnergyReading}
    (hnd : (l.map (fun x => x.id)).Nodup) (ha : a ∈ l) (hb : b ∈ l)
    (hid : a.id = b.id) : a = b := by
  induction l with
  | nil => cases ha
  | cons x xs ih =>
    simp only [List.map_cons, List.nodup_cons] at hnd
    obtain ⟨hnx, hnxs⟩ := hnd
    rcases List.mem_cons.mp ha with rfl | ha2
    · rcases List.mem_cons.mp hb with rfl | hb2
      · rfl
      · exact absurd (by rw [hid]; exact List.mem_map.mpr ⟨b, hb2, rfl⟩) hnx
    · rcases List.mem_cons.mp hb with rfl | hb2
      · exact absurd (by rw [← hid]; exact List.mem_map.mpr ⟨a, ha2, rfl⟩) hnx
      · exact ih hnxs ha2 hb2

theorem sortByTimestamp_pairwise (l : List EnergyReading) :
    List.Pairwise tsLE (sortByTimestamp l) :=
  List.sorted_insertionSort tsLE l

theorem mem_sortByTimestamp {r : EnergyReading} {l : List EnergyReading} :
    r ∈ sortByTimestamp l ↔ r ∈ l := by
  simp [sortByTimestamp]

theorem pairwise_take_drop {l : List EnergyReading}
    (hp : List.Pairwise tsLE l) (k : Nat) {a b : EnergyReading}
    (ha : a ∈ l.take k) (hb : b ∈ l.drop k) : tsLE a b := by
  have hsplit := List.take_append_drop k l
  rw [← hsplit] at hp
  exact (List.pairwise_append.mp hp).2.2 a ha b hb

/-- C2: under unique reading ids, every reading evicted by
cleanupOldReadings for a device has a timestamp at most that of every
reading it retains for the same device. -/
theorem cleanup_evicts_only_oldest (d : String) (st : List EnergyReading)
    (hnd : (st.map (fun x => x.id)).Nodup) (r1 r2 : EnergyReading)
    (h1mem : r1 ∈ st) (_h1dev : r1.deviceId = d)
    (h1out : r1 ∉ cleanupOldReadings d st)
    (h2mem : r2 ∈ cleanupOldReadings d st) (h2dev : r2.deviceId = d) :
    r1.timestamp ≤ r2.timestamp := by
  by_cases hlen : (getDeviceReadings d st).length > MAX_READINGS_PER_DEVICE
  case neg =>
    simp only [cleanupOldReadings, if_neg hlen] at h1out
    exact absurd h1mem h1out
  case pos =>
    have hclean : cleanupOldReadings d st
        = ((sortByTimestamp (getDeviceReadings d st)).take
            ((getDeviceReadings d st).length - MAX_READINGS_PER_DEVICE)).foldl
            (fun rs reading => removeFirstById reading.id rs) st := by
      simp only [cleanupOldReadings, if_pos hlen]
    rw [hclean] at h1out h2mem
    have h1old : r1 ∈ (sortByTimestamp (getDeviceReadings d st)).take
        ((getDeviceReadings d st).length - MAX_READINGS_PER_DEVICE) := by
      by_contra hno
      apply h1out
      apply mem_foldRemove _ h1mem
      intro o ho hid
      have host : o ∈ st := by
        have hs1 : o ∈ sortByTimestamp (getDeviceReadings d st) :=
          List.mem_of_mem_take ho
        have hs2 : o ∈ getDeviceReadings d st := mem_sortByTimestamp.mp hs1
        exact List.mem_of_mem_filter hs2
      have heq : r1 = o := id_injective_on_mem hnd h1mem host hid
      exact hno (heq ▸ ho)
    have h2st : r2 ∈ st := (foldRemove_sublist _ _).subset h2mem
    have h2not : r2 ∉ (sortByTimestamp (getDeviceReadings d st)).take
        ((getDeviceReadings d st).length - MAX_READINGS_PER_DEVICE) := by
      intro ho
      exact not_mem_foldRemove _ hnd h2st ⟨r2, ho, rfl⟩ h2mem
    have h2dr : r2 ∈ getDeviceReadings d st := by
      simp [getDeviceReadings, List.mem_filter, h2st, h2dev]
    have h2sorted : r2 ∈ sortByTimestamp (getDeviceReadings d st) :=
      mem_sortByTimestamp.mpr h2dr
    have hsplitmem : r2 ∈ (sortByTimestamp (getDeviceReadings d st)).take
          ((getDeviceReadings d st).length - MAX_READINGS_PER_DEVICE)
        ++ (sortByTimestamp (getDeviceReadings d st)).drop
          ((getDeviceReadings d st).length - MAX_READINGS_PER_DEVICE) := by
      rw [List.take_append_drop]
      exact h2sorted
    have h2drop : r2 ∈ (sortByTimestamp (getDeviceReadings d st)).drop
        ((getDeviceReadings d st).length - MAX_READINGS_PER_DEVICE) := by
      rcases List.mem_append.mp hsplitmem with h | h
      · exact absurd h h2not
      · exact h
    exact pairwise_take_drop (sortByTimestamp_pairwise _)
      ((getDeviceReadings d st).length - MAX_READINGS_PER_DEVICE) h1old h2drop

theorem cleanup_evicts_only_oldest_witness :
    (demoStore.map (fun x => x.id)).Nodup ∧
    demoReading 0 ∈ demoStore ∧
    demoReading 0 ∉ cleanupOldReadings "EAGLE-200-12345" demoStore ∧
    demoReading 1 ∈ cleanupOldReadings "EAGLE-200-12345" demoStore ∧
    (demoReading 0).timestamp ≤ (demoReading 1).timestamp :=
  ⟨by decide, by decide, by decide, by decide,
    cleanup_evicts_only_oldest "EAGLE-200-12345" demoStore (by decide)
      (demoReading 0) (demoReading 1) (by decide) rfl (by decide) (by decide) rfl⟩

theorem cleanup_sublist (d : String) (st : List EnergyReading) :
    List.Sublist (cleanupOldReadings d st) st := by
  by_cases h : (getDeviceReadings d st).length > MAX_READINGS_PER_DEVICE
  · simp only [cleanupOldReadings, if_pos h]
    exact foldRemove_sublist _ _
  · simp only [cleanupOldReadings, if_neg h]
    exact List.Sublist.refl st

theorem sortedDev_append_one (d : String) (st : List EnergyReading)
    (r : EnergyReading) (hs : sortedDev d st)
    (hts : r.deviceId = d →
      ∀ x ∈ getDeviceReadings d st, x.timestamp ≤ r.timestamp) :
    sortedDev d (st ++ [r]) := by
  unfold sortedDev getDeviceReadings at hs ⊢
  rw [List.filter_append]
  by_cases hd : r.deviceId = d
  · have hone : List.filter (fun x => x.deviceId = d) [r] = [r] := by simp [hd]
    rw [hone, List.pairwise_append]
    refine ⟨hs, List.pairwise_singleton _ _, ?_⟩
    intro a ha b hb
    rw [List.mem_singleton] at hb
    subst hb
    exact hts hd a ha
  · have hnone : List.filter (fun x => x.deviceId = d) [r] = [] := by simp [hd]
    rw [hnone, List.append_nil]
    exact hs

theorem sortedDev_cleanup (d dc : String) (st : List EnergyReading)
    (hs : sortedDev d st) : sortedDev d (cleanupOldReadings dc st) := by
  unfold sortedDev getDeviceReadings at hs ⊢
  exact List.Pairwise.sublist ((cleanup_sublist dc st).filter _) hs

theorem sortedDev_applyOp (d : String) (st : List EnergyReading)
    (op : RecordOp) (hs : sortedDev d st)
    (hts : (opReading op).deviceId = d →
      ∀ x ∈ getDeviceReadings d st, x.timestamp ≤ (opReading op).timestamp) :
    sortedDev d (applyOp st op) := by
  have hpush := sortedDev_append_one d st (opReading op) hs hts
  by_cases hc : opCleans op = true
  · simp only [applyOp, hc, if_true]
    exact sortedDev_cleanup _ _ _ hpush
  · rw [Bool.not_eq_true] at hc
    simp only [applyOp, hc, Bool.false_eq_true, if_false]
    exact hpush

/-- C8 counterexample: two batch items with client-supplied timestamps
100 then 50 leave the history of the device in insertion order, which is
not sorted by timestamp. -/
theorem history_not_sorted_counterexample :
    ¬ sortedDev "EAGLE-200-12345" (runOps demoOutOfOrderOps []) := by
  unfold sortedDev
  decide

/-- C8 amended: the history preserves insertion order, so it is sorted
non-decreasing by timestamp provided every recorded reading carries a
timestamp at least those already stored for its device (which holds for
server-stamped single-create and tick readings under a monotone clock,
and can fail for client-supplied batch or reading:new timestamps). -/
theorem history_sorted_of_admissible (d : String) (ops : List RecordOp) :
    ∀ st : List EnergyReading, sortedDev d st → Admissible d st ops →
      sortedDev d (runOps ops st) := by
  induction ops with
  | nil =>
    intro st h0 _
    exact h0
  | cons op ops ih =>
    intro st h0 hadm
    cases hadm with
    | cons _ _ _ hts htail =>
      simpa only [runOps, List.foldl_cons] using
        ih (applyOp st op) (sortedDev_applyOp d st op h0 hts) htail

theorem history_sorted_of_admissible_witness :
    sortedDev "EAGLE-200-12345" [] ∧
    Admissible "EAGLE-200-12345" []
      [RecordOp.single "EAGLE-200-12345" 10 1 7 240 ReadingType.consumption,
       RecordOp.single "EAGLE-200-12345" 20 2 8 240 ReadingType.consumption] ∧
    sortedDev "EAGLE-200-12345"
      (runOps
        [RecordOp.single "EAGLE-200-12345" 10 1 7 240 ReadingType.consumption,
         RecordOp.single "EAGLE-200-12345" 20 2 8 240 ReadingType.consumption] []) := by
  have hadm : Admissible "EAGLE-200-12345" []
      [RecordOp.single "EAGLE-200-12345" 10 1 7 240 ReadingType.consumption,
       RecordOp.single "EAGLE-200-12345" 20 2 8 240 ReadingType.consumption] := by
    apply Admissible.cons
    · intro _ r hr
      simp [getDeviceReadings] at hr
    · apply Admissible.cons
      · intro _ r hr
        simp only [applyOp, opReading, opCleans, cleanupOldReadings] at hr
        simp [getDeviceReadings, MAX_READINGS_PER_DEVICE] at hr
        subst hr
        simp [opReading]
      · exact Admissible.nil _
  have h0 : sortedDev "EAGLE-200-12345" [] := by
    unfold sortedDev
    simp [getDeviceReadings]
  exact ⟨h0, hadm,
    history_sorted_of_admissible "EAGLE-200-12345" _ [] h0 hadm⟩

theorem mapKeys_mapAddMember (k sid : String)
    (m : List (String × List String)) :
    List.Sublist (mapKeys m) (mapKeys (mapAddMember k sid m)) := by
  unfold mapAddMember
  have h1 : mapKeys ((ensureKey k m).map
      (fun p => if p.1 = k then (p.1, setAdd sid p.2) else p))
      = mapKeys (ensureKey k m) := by
    unfold mapKeys
    rw [List.map_map]
    congr 1
    funext p
    by_cases hp : p.1 = k <;> simp [Function.comp, hp]
  rw [h1]
  unfold ensureKey
  by_cases ha : m.any (fun p => p.1 = k) = true
  · simp only [ha, if_true]
    exact List.Sublist.refl _
  · rw [Bool.not_eq_true] at ha
    simp only [ha, Bool.false_eq_true, if_false]
    unfold mapKeys
    rw [List.map_append]
    exact List.sublist_append_left _ _

theorem mapKeys_mapDelMember (k sid : String)
    (m : List (String × List String)) :
    mapKeys (mapDelMember k sid m) = mapKeys m := by
  unfold mapDelMember mapKeys
  rw [List.map_map]
  congr 1
  funext p
  by_cases hp : p.1 = k <;> simp [Function.comp, hp]

theorem mapKeys_removeMap (sid : String) (m : List (String × List String)) :
    mapKeys (m.map (fun p => (p.1, p.2.filter (fun x => x ≠ sid))))
      = mapKeys m := by
  unfold mapKeys
  rw [List.map_map]
  congr 1

theorem subKeys_mono_step (st : SubState) (op : SubOp) :
    List.Sublist (mapKeys st.deviceSubscriptions)
        (mapKeys (applySubOp st op).deviceSubscriptions) ∧
    List.Sublist (mapKeys st.alertSubscriptions)
        (mapKeys (applySubOp st op).alertSubscriptions) ∧
    List.Sublist (mapKeys st.roomSubscriptions)
        (mapKeys (applySubOp st op).roomSubscriptions) := by
  cases op with
  | subscribe sid d =>
    exact ⟨mapKeys_mapAddMember d sid _, List.Sublist.refl _, List.Sublist.refl _⟩
  | unsubscribe sid d =>
    refine ⟨?_, List.Sublist.refl _, List.Sublist.refl _⟩
    show List.Sublist (mapKeys st.deviceSubscriptions)
      (mapKeys (mapDelMember d sid st.deviceSubscriptions))
    rw [mapKeys_mapDelMember]
  | subscribeStatus sid =>
    exact ⟨List.Sublist.refl _, List.Sublist.refl _, List.Sublist.refl _⟩
  | subscribeAlerts sid d =>
    exact ⟨List.Sublist.refl _, mapKeys_mapAddMember d sid _, List.Sublist.refl _⟩
  | joinRoom sid room =>
    exact ⟨List.Sublist.refl _, List.Sublist.refl _, mapKeys_mapAddMember room sid _⟩
  | leaveRoom sid room =>
    refine ⟨List.Sublist.refl _, List.Sublist.refl _, ?_⟩
    show List.Sublist (mapKeys st.roomSubscriptions)
      (mapKeys (mapDelMember room sid st.roomSubscriptions))
    rw [mapKeys_mapDelMember]
  | disconnect sid =>
    refine ⟨?_, ?_, ?_⟩
    · show List.Sublist (mapKeys st.deviceSubscriptions)
        (mapKeys (st.deviceSubscriptions.map
          (fun p => (p.1, p.2.filter (fun x => x ≠ sid)))))
      rw [mapKeys_removeMap]
    · show List.Sublist (mapKeys st.alertSubscriptions)
        (mapKeys (st.alertSubscriptions.map
          (fun p => (p.1, p.2.filter (fun x => x ≠ sid)))))
      rw [mapKeys_removeMap]
    · show List.Sublist (mapKeys st.roomSubscriptions)
        (mapKeys (st.roomSubscriptions.map
          (fun p => (p.1, p.2.filter (fun x => x ≠ sid)))))
      rw [mapKeys_removeMap]

/-- C10: across any sequence of subscribe, unsubscribe, alert-subscribe,
room join and leave, and disconnect operations, the key list of each
topic-keyed registry (device readings, alerts, rooms) only ever grows:
the initial keys survive as a sublist, since member deletion and
disconnect cleanup rewrite membership sets in place and never delete a
key. -/
theorem topic_keys_monotone (ops : List SubOp) (st : SubState) :
    List.Sublist (mapKeys st.deviceSubscriptions)
        (mapKeys (runSubOps ops st).deviceSubscriptions) ∧
    List.Sublist (mapKeys st.alertSubscriptions)
        (mapKeys (runSubOps ops st).alertSubscriptions) ∧
    List.Sublist (mapKeys st.roomSubscriptions)
        (mapKeys (runSubOps ops st).roomSubscriptions) := by
  induction ops generalizing st with
  | nil => exact ⟨List.Sublist.refl _, List.Sublist.refl _, List.Sublist.refl _⟩
  | cons op ops ih =>
    have hstep := subKeys_mono_step st op
    have hrest := ih (applySubOp st op)
    simp only [runSubOps, List.foldl_cons]
    exact ⟨hstep.1.trans hrest.1, hstep.2.1.trans hrest.2.1,
      hstep.2.2.trans hrest.2.2⟩

set_option maxRecDepth 100000 in
/-- C1 at the failing input: the POST /api/readings/batch handler pushes
each item without ever calling cleanupOldReadings, so a single batch of
101 readings for one device leaves 101 readings in the store — above the
documented MAX_READINGS_PER_DEVICE cap, with no eviction. -/
theorem batch_overflows_cap :
    (getDeviceReadings "EAGLE-200-12345" (runOps demoBatchOps [])).length = 101 ∧
    MAX_READINGS_PER_DEVICE <
      (getDeviceReadings "EAGLE-200-12345" (runOps demoBatchOps [])).length := by
  decide
